import Mathlib

/-!
Verification of the conversation-state and reply-dispatch pipeline of `app.py`:
a shallow embedding of the bounded per-user history store, the prompt builder,
the reply worker and the webhook callback, together with theorems about them.

Machine integers do not occur in the relevant code; Python strings are embedded
as Lean `String` (both are sequences of Unicode code points, so `len`, slicing
and concatenation coincide with `String.length`, `String.take`, `++`).
-/

/-- One conversation turn, `(role, text)`, as stored in the deques of
`history` (`app.py` line 44): the role is the plain string `"user"` or
`"assistant"`. -/
abbrev Turn := String × String

/-- The history store `history : Dict[str, Deque[Tuple[str, str]]]`
(`app.py` line 44), embedded as an association list keyed by user id. -/
abbrev History := List (String × List Turn)

/-- The store at process start: an empty dict. -/
def emptyHistory : History := []

/-- Reading `history.get(user_id)` where a missing key reads as the empty
window, exactly as `history.get(user_id, deque())` does on line 62. -/
def histGet : History → String → List Turn
  | [], _ => []
  | (k, w) :: rest, uid => if k = uid then w else histGet rest uid

/-- Writing the window of `user_id`: dict entry update, inserting the key
if absent (lines 53-57 create the deque lazily and mutate it in place). -/
def histSet : History → String → List Turn → History
  | [], uid, w => [(uid, w)]
  | (k, v) :: rest, uid, w =>
      if k = uid then (k, w) :: rest else (k, v) :: histSet rest uid w

/-- The fixed window capacity: `deque(maxlen=6)` on line 55. -/
def capacity : Nat := 6

/-- `deque(maxlen=6).append(t)`: when the deque is full the oldest (leftmost)
element is discarded before the new one is appended on the right. -/
def dequeAppend (w : List Turn) (t : Turn) : List Turn :=
  if w.length < capacity then w ++ [t] else w.tail ++ [t]

/-- `append_turn(user_id, role, text)` (`app.py` lines 51-57).  The whole
read-modify-write body runs under `hist_lock`, so each call is one atomic
step; the embedding therefore treats it as a single state transformer. -/
def append_turn (h : History) (user_id role text : String) : History :=
  histSet h user_id (dequeAppend (histGet h user_id) (role, text))

/-- The whitespace class stripped by Python `str.strip()` (restricted to the
ASCII whitespace characters; the further Unicode space characters Python also
strips never occur in the strings the claims are about). -/
def isPySpace (c : Char) : Bool :=
  c = ' ' || c = '\t' || c = '\n' || c = '\r' || c = '\x0b' || c = '\x0c'

/-- Python `s.strip()`: drop leading and trailing whitespace. -/
def pyStrip (s : String) : String :=
  String.mk (((s.data.dropWhile isPySpace).reverse.dropWhile isPySpace).reverse)

/-- One rendered history line (`app.py` lines 64-66):
`speaker = "User" if role == "user" else "Assistant"`, then
`f"{speaker}: {txt}"`. -/
def renderTurn (t : Turn) : String :=
  (if t.1 = "user" then "User" else "Assistant") ++ ": " ++ t.2

/-- The static template text of the f-string on lines 70-113 up to the
`past_text` interpolation point, copied verbatim from the source. -/
def promptHead : String :=
"【Style Guide】 這是一個北一女中資訊研習社（北一資研）的吉祥物帳號，這隻吉祥物叫做「蘇格拉底雞」（英文名 Sugarlady）。至於為什麼叫蘇格拉底雞，仍然是個謎。
    請用友善的語氣回答問題，使用自然聊天的語言和格式，不要像「重點整理」。訊息不要太長，也不要使用粗體或斜體。你可以反問學妹問題，讓對話更自然。
    常用片語包含「很電」（＝厲害）、「破房」（＝完蛋、傷心）、「燒雞」（＝完蛋、沒救、失敗）。不要每個對話都推銷資研，也可以聊別的，
    但可以找有關聯的話題或是諧音梗連回資研。 
    【Knowledge Base】 北一女中資訊研習社（簡稱北一資研、北資）創社於民國 76 年 11 月 11 日，現任社師為楊喻文老師。
    北資有屬於社團獨立的 BBS ── 弗基斯特，大社課教授 C++，並鼓勵社員參與競賽，歷屆許多學姊表現十分優異。 
    中午和放學的額社秉持多元化傳統，致力提升校內資訊風氣，也舉辦活動聯絡感情。
    - 大社課：星期五的正式社課，由學術與社師教授不同主題（例如 C++）。 
    - 中午小社課：每天中午（12:10–12:40），由幹部教授課程，包括 C++、Python、AI、Unity、網頁、資安。 
    - 放學聯課：放學後由北資與建中電子計算機研習社（建電）幹部教授課程，包括 C++、Python、Unity、網頁、資安、機器學習。 
    友社：建電與北資自 1995 年合作，至今已傳承 30 屆，合稱建北電資。雙方關係密切，春夏秋冬的大活動和小社課都共同舉辦。 
    關於北一：北一女中有大熱食部（簡稱「大熱」）及小熱食部（簡稱「小熱」）。前者販售熟食、自助餐等，熱銷商品包含鍋燒意麵、草莓杯。
    後者販售點心、冰品及炸物為主，熱銷商品包含巧克力卡拉雞、薯不辣（薯條和甜不辣）等。北資的中午小社課使用電腦教室，不能吃午餐，但是會預留時間讓學妹下課後有空吃午餐。 
    這屆北資的幹部包含： 
    - 社長 Claire（克萊爾），人緣很好，是數資班大電神，負責資安的課程。 
    - 副社長兼公關 桃桃，很精緻可愛，喜歡烏薩奇，喜歡用豬鼻子的表情符號。據說臉很好捏。
    - 公關長 阿睿，很可愛又很帥，綽號貌似 array（陣列），很卷（認真唸書的意思）。 
    - 學術長 蘇西，負責北資的課程安排，是個興趣廣泛的生活白癡，也是這隻吉祥物的作者，負責 AI 和 Python 的課程。「蘇西」這個名字取自佩佩豬最好的朋友，小羊蘇西。 這支蘇格拉底雞是蘇西讓他可以講話的，但這隻蘇格拉底雞的角色是前幾屆學長屆創造並繪製出來的。
    - 學術 children（是 children 不是 child!），是社交達人，也是個大文豪，題目敘述和各種劇本經常都是她一手包辦，負責 Python 的課程。 
    - 學術 水餃，也是個數資大電神，看起來呆萌但其實超聰明，數學很好，喜歡抱著鯊鯊（建北電資的鯊魚娃娃），也是韓研（韓國文化研究社）的幹部，超電，負責網頁和 C++ 的課程。 
    - 學術兼文書 夜雨，超級 I 人（內向），感覺很傲嬌，負責遊戲製作軟體 Unity 的課程。 
    - 文書長 高高，溫柔姐姐，超級會畫畫。 也會跳舞！
    - 文書兼總務 小言，也是超級會畫畫，對陸劇集二次元日本動漫有研究。 
    - 雞蛋：雖然不是正式幹部，但是對北資貢獻很大！「雞蛋學姊是誰？」「雞蛋學姊是一顆雞蛋！」而且據說雞蛋學姊很容易暈船。她很電，喜歡看動漫，是個「超濃腐女」，喜歡看 BL。她喜歡聽音樂，包含日文、韓文、英文、中文歌， 然後會拉小提琴跟彈吉他，在建北電資聯合暑訓有彈吉他負責教小隊員唱歌喔！她也喜歡數學，自稱是個有氣質的小女孩。聽說蘇格拉底雞是她的姊姊。

    這屆建電的幹部包含：
    - 社長 國Llama 是個排球少年，數資班大電神。
    - 副社長 一拳 好像是個爛梗王，取名叫一拳據說是因為如果叫他一拳超人的話，他會給你一拳。是個盡責的人，扛。
    - 學術長 Eating（正在吃） 座位永遠很亂，是個情緒穩定的 chill guy。很常遲到，但其實超級電。不只資訊能力超電，他同時是建中班聯會的活動長，和航空社的幹部，十分不簡單。
    - 學術 Boron（硼砂）也是學術能力很電，喜歡玩音遊（音樂電動遊戲），常常玩到感覺鍵盤快被他打壞了。
    - 學術 Roy 競賽程式（競程）電神，做專案也很厲害！是個內向的人，但是跟熟的人會很吵
    - 學術兼網管 Benny班尼  保有學習的熱忱，是個外向的活潑男孩。喜歡講各種不可理喻的高深理論和幽默言詞。喜歡 Minecraft 模組開發、把 Rust 當腳本寫。
    - 學術兼網管 Windsor溫莎 號稱自己是「溫莎學姊」。現在負責重寫建北電資社網的工作，電。英文滿好的，講話微微抽象。代名詞請用「他」。
    - 衛生兼總務 Takora塔摳拉 喜歡吃奇怪的食物組合，例如水餃加番茄醬（建北電資很喜歡討論水餃到底可不可以加番茄醬的問題，水餃學姊表示不行）。在 instagram 上面超級活網，PO很多東西。同時是建中天文社的幹部，是個四幹人，電。
    - 總務 Brandon 雖然不是學術，但還是接了 Unity 的放學聯課，電。好像跟薑餅人有很大的關聯。
    - 文書兼公關 葉子 是建電裡面罕見的文組人，是李白狂粉，信手捻來就是文言文。會講相聲。會按讚每個人的每則限動。
    - 公關兼美宣 虛無裂德 大E人，很會社交。喜歡寶可夢，綽號是從寶可夢來的。會扮演死神。會寫 Scratch。

    9/12 的體驗社課是我們的學術小孩上的 Gemini API 入門唷，這週我們會更深入介紹 Gemini 的 API，並且帶大家進行 Python 的實作，地點在「至善 3 樓地理專科教室」。
    
    【Recent Conversation】(最多三輪) "

/-- The static template text between the `past_text` and `user_text`
interpolation points of the f-string (line 110). -/
def promptMid : String :=
" 【User】 "

/-- The static template text after the `user_text` interpolation point
(lines 110-113). -/
def promptTail : String :=
" 請在80字內回答問題。 
    
    
    "

/-- `build_prompt(user_text, user_id)` (`app.py` lines 59-114).  The snapshot
`past = list(history.get(user_id, deque()))` is taken under `hist_lock`; the
rest is pure string assembly: each past turn becomes one `"Speaker: text"`
line, the lines are joined with newlines (or replaced by the fixed no-history
marker when there are none), and the f-string splices the result and the raw
`user_text` into the static template. -/
def build_prompt (user_text : String) (user_id : String) (h : History) : String :=
  let past := histGet h user_id
  let lines := past.map renderTurn
  let past_text := if lines = [] then "（無對話記錄）" else String.intercalate "\n" lines
  promptHead ++ past_text ++ promptMid ++ user_text ++ promptTail

/-- The reply normalization on line 143: `(resp.text or "(No response)").strip()`.
A falsy (empty or missing) response text is replaced by the placeholder, and
the result is whitespace-stripped afterwards. -/
def normalizeReply (t : String) : String :=
  pyStrip (if t = "" then "(No response)" else t)

/-- The truncation step on lines 144-145: `if len(reply) > 1000: reply =
reply[:1000] + "…"`. -/
def truncateReply (reply : String) : String :=
  if reply.length > 1000 then reply.take 1000 ++ "…" else reply

/-- Everything a finished reply worker has produced: the history store it
leaves behind, the prompt it sent to the generation backend, and the reply
text and reply token it passed to the platform send API. -/
structure WorkerRun where
  history : History
  prompt : String
  sent : String
  sentToken : String

/-- `worker_reply(user_id, user_text, reply_token)` (`app.py` lines 136-157).
The generation backend is a parameter `generate` returning either the
response text or the failure detail `str(e)`; the `try`/`except` around the
generation call is the `match`: a failure becomes the fallback reply
`f"Gemini error: {e}"` instead of escaping the worker. -/
def worker_reply (h : History) (user_id user_text reply_token : String)
    (generate : String → Except String String) : WorkerRun :=
  let h1 := append_turn h user_id "user" (if user_text = "" then "(empty)" else user_text)
  let prompt := build_prompt user_text user_id h1
  let reply :=
    match generate prompt with
    | Except.ok t => truncateReply (normalizeReply t)
    | Except.error e => "Gemini error: " ++ e
  let h2 := append_turn h1 user_id "assistant" reply
  ⟨h2, prompt, reply, reply_token⟩

/-- `on_text_message(event)` (`app.py` lines 159-165): the inbound message
text (`None` embedded as `Option.none`) is defaulted to `""` and stripped,
and a worker thread is spawned on the result. -/
def on_text_message (h : History) (user_id : String) (rawText : Option String)
    (reply_token : String) (generate : String → Except String String) : WorkerRun :=
  worker_reply h user_id (pyStrip (rawText.getD "")) reply_token generate

/-- One recognized text-message event of the parsed webhook body. -/
structure InboundEvent where
  user_id : String
  rawText : Option String
  reply_token : String

/-- The `POST /callback` handler (`app.py` lines 123-134).  `verify` abstracts
the LINE SDK signature check performed inside `handler.handle(body, signature)`
against the configured channel secret (an external black box returning
valid/invalid), and `events` the SDK's parse of the body into text-message
events.  On `InvalidSignatureError` the handler aborts with 400 before any
event is dispatched; otherwise each event only spawns a worker thread, so the
request path returns 200 with the history store untouched and the events
handed to workers. -/
def callback (verify : String → String → String → Bool)
    (secret signature body : String) (h : History) (events : List InboundEvent) :
    Nat × History × List InboundEvent :=
  if verify secret signature body then (200, h, events) else (400, h, [])

/-- One `append_turn` call, as issued by an independent caller.  Because the
source holds `hist_lock` for the whole body of `append_turn`, every
interleaving of concurrent calls is a sequence of these atomic steps. -/
structure AppendCall where
  user_id : String
  role : String
  text : String

/-- Execute one atomic `append_turn` step. -/
def runAppend (h : History) (c : AppendCall) : History :=
  append_turn h c.user_id c.role c.text

/-- Execute a serialization of append calls, left to right. -/
def runAppends (h : History) (cs : List AppendCall) : History :=
  cs.foldl runAppend h

/-- The turns of the calls addressed to user `u`, in serialization order. -/
def callsFor (u : String) (cs : List AppendCall) : List Turn :=
  (cs.filter (fun c => c.user_id == u)).map (fun c => (c.role, c.text))

/-- Sequentially append a list of turns for one user (`append_turn` iterated). -/
def appendTurns (h : History) (user_id : String) (ts : List Turn) : History :=
  ts.foldl (fun acc t => append_turn acc user_id t.1 t.2) h

/-- The last `n` elements of a list. -/
def lastN (n : Nat) (l : List α) : List α := l.drop (l.length - n)

/-! ### Facts about the store and the bounded deque -/

theorem histGet_histSet_self (h : History) (uid : String) (w : List Turn) :
    histGet (histSet h uid w) uid = w := by
  induction h with
  | nil => simp [histSet, histGet]
  | cons p rest ih =>
      obtain ⟨k, v⟩ := p
      by_cases hk : k = uid
      · simp [histSet, histGet, hk]
      · simp [histSet, histGet, hk, ih]

theorem histGet_histSet_ne (h : History) (uid uid' : String) (w : List Turn)
    (hne : uid' ≠ uid) : histGet (histSet h uid w) uid' = histGet h uid' := by
  induction h with
  | nil => simp [histSet, histGet, Ne.symm hne]
  | cons p rest ih =>
      obtain ⟨k, v⟩ := p
      by_cases hk : k = uid
      · simp [histSet, histGet, hk, Ne.symm hne]
      · simp [histSet, histGet, hk, ih]

theorem histGet_append_turn_self (h : History) (uid role text : String) :
    histGet (append_turn h uid role text) uid
      = dequeAppend (histGet h uid) (role, text) := by
  simp [append_turn, histGet_histSet_self]

theorem histGet_append_turn_ne (h : History) (uid uid' role text : String)
    (hne : uid' ≠ uid) :
    histGet (append_turn h uid role text) uid' = histGet h uid' := by
  simp [append_turn, histGet_histSet_ne _ _ _ _ hne]

theorem lastN_length_le (n : Nat) (l : List α) : (lastN n l).length ≤ n := by
  simp [lastN]
  omega

theorem lastN_of_le {n : Nat} {l : List α} (h : l.length ≤ n) : lastN n l = l := by
  simp [lastN, Nat.sub_eq_zero_of_le h]

theorem dequeAppend_eq_lastN (w : List Turn) (t : Turn) (hw : w.length ≤ capacity) :
    dequeAppend w t = lastN capacity (w ++ [t]) := by
  by_cases hlt : w.length < capacity
  · rw [dequeAppend, if_pos hlt, lastN_of_le (by simp; omega)]
  · rw [dequeAppend, if_neg hlt]
    have h6 : w.length = capacity := by omega
    have hc : 1 ≤ capacity := by rw [capacity]; omega
    simp only [lastN, List.length_append, List.length_singleton]
    rw [List.drop_append_eq_append_drop]
    have e1 : w.length + 1 - capacity = 1 := by omega
    have e2 : (1 : Nat) - w.length = 0 := by omega
    rw [e1, e2, List.drop_one, List.drop_zero]

theorem lastN_concat_absorb (n : Nat) (l : List α) (x : α) :
    lastN n (lastN n l ++ [x]) = lastN n (l ++ [x]) := by
  by_cases hle : l.length ≤ n
  · rw [lastN_of_le hle]
  · by_cases hn : n = 0
    · subst hn
      simp only [lastN, Nat.sub_zero]
      rw [List.drop_length, List.drop_length]
    · simp only [lastN, List.length_append, List.length_singleton, List.length_drop]
      rw [List.drop_append_eq_append_drop, List.drop_append_eq_append_drop]
      simp only [List.length_drop]
      have e2 : l.length - (l.length - n) + 1 - n - (l.length - (l.length - n)) = 0 := by
        omega
      rw [e2]
      have e1 : l.length - (l.length - n) + 1 - n = 1 := by omega
      rw [e1]
      have e3 : l.length + 1 - n - l.length = 0 := by omega
      rw [e3]
      simp only [List.drop_zero]
      rw [List.drop_drop]
      have e4 : l.length - n + 1 = l.length + 1 - n := by omega
      rw [e4]

/-! ### Serializations of atomic appends -/

theorem histGet_runAppends (cs : List AppendCall) (u : String) :
    histGet (runAppends emptyHistory cs) u = lastN capacity (callsFor u cs) := by
  induction cs using List.reverseRecOn with
  | nil => simp [runAppends, emptyHistory, callsFor, histGet, lastN]
  | append_singleton cs c ih =>
      rw [runAppends, List.foldl_append] at *
      by_cases hc : c.user_id = u
      · have hstep : histGet (runAppend (List.foldl runAppend emptyHistory cs) c) u
            = dequeAppend (histGet (List.foldl runAppend emptyHistory cs) u)
                (c.role, c.text) := by
          rw [runAppend, hc, histGet_append_turn_self]
        rw [List.foldl_cons, List.foldl_nil, hstep, ih,
          dequeAppend_eq_lastN _ _ (lastN_length_le _ _), lastN_concat_absorb]
        congr 1
        simp [callsFor, List.filter_append, hc]
      · rw [List.foldl_cons, List.foldl_nil, runAppend,
          histGet_append_turn_ne _ _ _ _ _ (fun he => hc he.symm), ih]
        congr 1
        simp [callsFor, List.filter_append, hc]

theorem appendTurns_eq_runAppends (h : History) (uid : String) (ts : List Turn) :
    appendTurns h uid ts
      = runAppends h (ts.map fun t => AppendCall.mk uid t.1 t.2) := by
  induction ts generalizing h with
  | nil => rfl
  | cons t ts ih =>
      simp only [appendTurns, runAppends, List.map_cons, List.foldl_cons] at *
      exact ih (append_turn h uid t.1 t.2)

theorem callsFor_map_self (uid : String) (ts : List Turn) :
    callsFor uid (ts.map fun t => AppendCall.mk uid t.1 t.2) = ts := by
  induction ts with
  | nil => rfl
  | cons t ts ih => simp [callsFor] at *; simp [ih]

/-- C1: for every user id, after any sequence of `N > capacity` appends via
`append_turn`, the snapshot of that user's window (the list `build_prompt`
takes from `history`) is exactly the last `capacity = 6` appended turns in
their original relative append order: strict FIFO eviction, and the window
holds exactly 6 turns. -/
theorem append_turn_bounded_fifo (uid : String) (ts : List Turn)
    (hN : capacity < ts.length) :
    histGet (appendTurns emptyHistory uid ts) uid = ts.drop (ts.length - capacity)
    ∧ (histGet (appendTurns emptyHistory uid ts) uid).length = capacity := by
  have key : histGet (appendTurns emptyHistory uid ts) uid = lastN capacity ts := by
    rw [appendTurns_eq_runAppends, histGet_runAppends, callsFor_map_self]
  refine ⟨key.trans (by rw [lastN]), ?_⟩
  rw [key]
  simp only [lastN, List.length_drop]
  omega

theorem append_turn_bounded_fifo_witness :
    capacity
      < ([("user", "t1"), ("assistant", "t2"), ("user", "t3"), ("assistant", "t4"),
          ("user", "t5"), ("assistant", "t6"), ("user", "t7")] : List Turn).length
    ∧ (histGet
          (appendTurns emptyHistory "u1"
            [("user", "t1"), ("assistant", "t2"), ("user", "t3"), ("assistant", "t4"),
             ("user", "t5"), ("assistant", "t6"), ("user", "t7")]) "u1"
        = ([("user", "t1"), ("assistant", "t2"), ("user", "t3"), ("assistant", "t4"),
            ("user", "t5"), ("assistant", "t6"), ("user", "t7")] : List Turn).drop
            (([("user", "t1"), ("assistant", "t2"), ("user", "t3"), ("assistant", "t4"),
               ("user", "t5"), ("assistant", "t6"), ("user", "t7")] : List Turn).length
              - capacity)
       ∧ (histGet
            (appendTurns emptyHistory "u1"
              [("user", "t1"), ("assistant", "t2"), ("user", "t3"), ("assistant", "t4"),
               ("user", "t5"), ("assistant", "t6"), ("user", "t7")]) "u1").length
          = capacity) :=
  ⟨by decide, append_turn_bounded_fifo "u1" _ (by decide)⟩

/-- C2: concurrent `append_turn` calls are atomic (each call holds `hist_lock`
for its whole read-modify-write), so every interleaving of `T` independent
callers is some serialization `cs` of the atomic calls.  For every such
serialization and every user `u`, the resulting window of `u` is exactly the
last `capacity` of the turns addressed to `u`, in serialization order — all
`T` turns up to capacity eviction, none duplicated, none lost — and it equals
the result of serially executing only `u`'s calls, untouched by interleaved
calls for other user ids. -/
theorem append_turn_linearizable_per_key (cs : List AppendCall) (u : String) :
    histGet (runAppends emptyHistory cs) u = lastN capacity (callsFor u cs)
    ∧ histGet (runAppends emptyHistory cs) u
        = histGet (runAppends emptyHistory (cs.filter (fun c => c.user_id == u))) u := by
  refine ⟨histGet_runAppends cs u, ?_⟩
  rw [histGet_runAppends, histGet_runAppends]
  congr 1
  simp [callsFor, List.filter_filter]

/-! ### Prompt building -/

/-- C3: prompt building is deterministic and depends only on its inputs.
`build_prompt` reads nothing but the window stored for `user_id` and its
explicit arguments: two calls with identical arguments over history states
whose snapshot for `user_id` coincides yield one identical output string —
in particular two calls with identical arguments and identical history
contents agree, with no dependence on time, randomness or other state. -/
theorem build_prompt_deterministic (user_text user_id : String) (h h' : History)
    (hsame : histGet h user_id = histGet h' user_id) :
    build_prompt user_text user_id h = build_prompt user_text user_id h' := by
  simp only [build_prompt, hsame]

theorem build_prompt_deterministic_witness :
    histGet [("u1", [("user", "hi")]), ("u2", [("user", "x")])] "u1"
      = histGet [("u1", [("user", "hi")])] "u1"
    ∧ build_prompt "hello" "u1" [("u1", [("user", "hi")]), ("u2", [("user", "x")])]
      = build_prompt "hello" "u1" [("u1", [("user", "hi")])] :=
  ⟨by decide, build_prompt_deterministic "hello" "u1" _ _ (by decide)⟩

/-- C4: for every history snapshot, `build_prompt` renders each turn, in
snapshot order, as the line `"Speaker: text"` — role `"user"` mapped to
speaker `"User"` and role `"assistant"` to `"Assistant"` — and embeds the
newline-joined lines verbatim in the returned prompt; in particular the
snapshot `[("user","a"), ("assistant","b")]` produces the line `"User: a"`,
a newline, then the line `"Assistant: b"`, in that order, verbatim in the
prompt. -/
theorem build_prompt_renders_history (user_text user_id : String) (h : History) :
    (∀ x : String, renderTurn ("user", x) = "User: " ++ x
        ∧ renderTurn ("assistant", x) = "Assistant: " ++ x)
    ∧ (histGet h user_id ≠ [] →
        ∃ s1 s2, build_prompt user_text user_id h
          = s1 ++ String.intercalate "\n" ((histGet h user_id).map renderTurn) ++ s2)
    ∧ (histGet h user_id = [("user", "a"), ("assistant", "b")] →
        ∃ s1 s2, build_prompt user_text user_id h
          = s1 ++ ("User: a" ++ "\n" ++ "Assistant: b") ++ s2) := by
  refine ⟨fun x => ⟨rfl, rfl⟩, ?_, ?_⟩
  · intro hne
    refine ⟨promptHead, promptMid ++ user_text ++ promptTail, ?_⟩
    have hlines : ¬((histGet h user_id).map renderTurn = []) := by
      intro he
      exact hne (List.map_eq_nil_iff.mp he)
    simp only [build_prompt, if_neg hlines]
    simp [String.append_assoc]
  · intro hsnap
    refine ⟨promptHead, promptMid ++ user_text ++ promptTail, ?_⟩
    have step1 : build_prompt user_text user_id h
        = promptHead ++ "User: a\nAssistant: b" ++ promptMid ++ user_text ++ promptTail := by
      simp only [build_prompt, hsnap]
      rfl
    rw [step1]
    have hx : "User: a" ++ "\n" ++ "Assistant: b" = "User: a\nAssistant: b" := rfl
    rw [hx]
    simp [String.append_assoc]

theorem build_prompt_renders_history_witness :
    (histGet [("u1", [("user", "a"), ("assistant", "b")])] "u1" ≠ []
      ∧ ∃ s1 s2, build_prompt "hello" "u1" [("u1", [("user", "a"), ("assistant", "b")])]
          = s1 ++ String.intercalate "\n"
              ((histGet [("u1", [("user", "a"), ("assistant", "b")])] "u1").map renderTurn)
            ++ s2)
    ∧ (histGet [("u1", [("user", "a"), ("assistant", "b")])] "u1"
          = [("user", "a"), ("assistant", "b")]
      ∧ ∃ s1 s2, build_prompt "hello" "u1" [("u1", [("user", "a"), ("assistant", "b")])]
          = s1 ++ ("User: a" ++ "\n" ++ "Assistant: b") ++ s2) :=
  ⟨⟨by decide, (build_prompt_renders_history "hello" "u1" _).2.1 (by decide)⟩,
   ⟨by decide, (build_prompt_renders_history "hello" "u1" _).2.2 (by decide)⟩⟩

/-- C5: when the snapshot for the user is empty (the user id absent from the
store, or its window empty), the returned prompt embeds the fixed no-history
marker `（無對話記錄）` in place of the rendered history block. -/
theorem build_prompt_empty_history_marker (user_text user_id : String) (h : History)
    (hsnap : histGet h user_id = []) :
    ∃ s1 s2, build_prompt user_text user_id h = s1 ++ "（無對話記錄）" ++ s2 := by
  refine ⟨promptHead, promptMid ++ user_text ++ promptTail, ?_⟩
  have step1 : build_prompt user_text user_id h
      = promptHead ++ "（無對話記錄）" ++ promptMid ++ user_text ++ promptTail := by
    simp only [build_prompt, hsnap]
    rfl
  rw [step1]
  simp [String.append_assoc]

theorem build_prompt_empty_history_marker_witness :
    histGet emptyHistory "u1" = []
    ∧ ∃ s1 s2, build_prompt "hello" "u1" emptyHistory
        = s1 ++ "（無對話記錄）" ++ s2 :=
  ⟨rfl, build_prompt_empty_history_marker "hello" "u1" emptyHistory rfl⟩

/-! ### Reply truncation and normalization -/

/-- C6: a reply longer than the 1000-character budget is clamped to the first
1000 characters and suffixed with the ellipsis marker `…`; a reply at or
under the budget passes through the truncation step unchanged. -/
theorem truncateReply_clamps (reply : String) :
    (1000 < reply.length → truncateReply reply = reply.take 1000 ++ "…")
    ∧ (reply.length ≤ 1000 → truncateReply reply = reply) := by
  constructor
  · intro hgt
    rw [truncateReply, if_pos (by omega)]
  · intro hle
    rw [truncateReply, if_neg (by omega)]

theorem truncateReply_clamps_witness :
    (1000 < (String.mk (List.replicate 1001 'x')).length
      ∧ truncateReply (String.mk (List.replicate 1001 'x'))
          = (String.mk (List.replicate 1001 'x')).take 1000 ++ "…")
    ∧ (("short" : String).length ≤ 1000 ∧ truncateReply "short" = "short") :=
  ⟨⟨by
      show 1000 < (List.replicate 1001 'x').length
      rw [List.length_replicate]
      omega,
    (truncateReply_clamps _).1 (by
      show 1000 < (List.replicate 1001 'x').length
      rw [List.length_replicate]
      omega)⟩,
   ⟨by decide, (truncateReply_clamps "short").2 (by decide)⟩⟩

/-! ### The reply worker -/

theorem dequeAppend_concat (w : List Turn) (t : Turn) :
    ∃ s, dequeAppend w t = s ++ [t] := by
  by_cases hlt : w.length < capacity
  · exact ⟨w, by rw [dequeAppend, if_pos hlt]⟩
  · exact ⟨w.tail, by rw [dequeAppend, if_neg hlt]⟩

theorem dequeAppend_concat_two (w : List Turn) (x y : Turn) :
    ∃ s, dequeAppend (dequeAppend w x) y = s ++ [x, y] := by
  obtain ⟨p, hp⟩ := dequeAppend_concat w x
  rw [hp]
  by_cases hlt : (p ++ [x]).length < capacity
  · refine ⟨p, ?_⟩
    rw [dequeAppend, if_pos hlt, List.append_assoc]
    rfl
  · have hpne : p ≠ [] := by
      intro he
      subst he
      rw [List.nil_append, List.length_singleton] at hlt
      exact hlt (by rw [capacity]; omega)
    obtain ⟨a, p', hpp⟩ := List.exists_cons_of_ne_nil hpne
    subst hpp
    refine ⟨p', ?_⟩
    rw [dequeAppend, if_neg hlt, List.cons_append, List.tail_cons, List.append_assoc]
    rfl

/-- Within one worker run, the user turn (normalized `(empty)` placeholder for
falsy text) and then the assistant turn (the sent reply) are appended for
`user_id`, in this order; they end up as the final two turns of the window. -/
theorem worker_reply_appends_both (h : History)
    (user_id user_text reply_token : String)
    (generate : String → Except String String) :
    ∃ s, histGet (worker_reply h user_id user_text reply_token generate).history user_id
      = s ++ [("user", if user_text = "" then "(empty)" else user_text),
              ("assistant", (worker_reply h user_id user_text reply_token generate).sent)] := by
  simp only [worker_reply]
  rw [histGet_append_turn_self, histGet_append_turn_self]
  exact dequeAppend_concat_two _ _ _

/-- C7 counterexample: a successful generation whose response text is the
single space `" "` is not empty, so it skips the `(No response)`
normalization, but the subsequent `.strip()` reduces it to the empty string:
the worker records the empty string as the assistant turn and sends it, so
the sent reply of a successful generation can be the empty string. -/
theorem worker_reply_whitespace_reply_empty :
    (worker_reply emptyHistory "u1" "hi" "tok" (fun _ => Except.ok " ")).sent = ""
    ∧ histGet (worker_reply emptyHistory "u1" "hi" "tok"
        (fun _ => Except.ok " ")).history "u1"
      = [("user", "hi"), ("assistant", "")] := by
  constructor
  · rfl
  · rfl

/-- C7 (amended): a successful generation call whose response text is exactly
the empty string is normalized to the fixed placeholder `(No response)`,
which is recorded as the assistant turn and sent; however — see the
counterexample — a whitespace-only successful response is stripped to the
empty string after this normalization, so the recorded assistant turn and
the sent reply are not in general non-empty on a successful generation. -/
theorem worker_reply_empty_response_placeholder (h : History)
    (user_id user_text reply_token : String)
    (generate : String → Except String String)
    (hgen : ∀ p, generate p = Except.ok "") :
    (worker_reply h user_id user_text reply_token generate).sent = "(No response)"
    ∧ ∃ s, histGet (worker_reply h user_id user_text reply_token generate).history user_id
        = s ++ [("assistant", "(No response)")] := by
  have hsent : (worker_reply h user_id user_text reply_token generate).sent
      = "(No response)" := by
    simp only [worker_reply, hgen]
    rfl
  refine ⟨hsent, ?_⟩
  obtain ⟨s, hs⟩ := worker_reply_appends_both h user_id user_text reply_token generate
  rw [hsent] at hs
  refine ⟨s ++ [("user", if user_text = "" then "(empty)" else user_text)], ?_⟩
  rw [hs, List.append_assoc]
  rfl

theorem worker_reply_empty_response_placeholder_witness :
    (worker_reply emptyHistory "u1" "hi" "tok" (fun _ => Except.ok "")).sent
      = "(No response)"
    ∧ ∃ s, histGet (worker_reply emptyHistory "u1" "hi" "tok"
          (fun _ => Except.ok "")).history "u1"
        = s ++ [("assistant", "(No response)")] :=
  worker_reply_empty_response_placeholder emptyHistory "u1" "hi" "tok" _ (fun _ => rfl)

/-- C8: every failure of the generation call inside the worker is recovered
locally: the worker builds the fallback reply `"Gemini error: "` followed by
the failure detail, records it as the assistant turn in the history store,
and passes exactly that fallback to the platform send call — the failure
never escapes the worker (the embedding is a total function whose only
failure handling is this fallback branch). -/
theorem worker_reply_generation_failure_fallback (h : History)
    (user_id user_text reply_token e : String)
    (generate : String → Except String String)
    (hgen : ∀ p, generate p = Except.error e) :
    (worker_reply h user_id user_text reply_token generate).sent = "Gemini error: " ++ e
    ∧ ∃ s, histGet (worker_reply h user_id user_text reply_token generate).history user_id
        = s ++ [("assistant", "Gemini error: " ++ e)] := by
  have hsent : (worker_reply h user_id user_text reply_token generate).sent
      = "Gemini error: " ++ e := by
    simp only [worker_reply, hgen]
  refine ⟨hsent, ?_⟩
  obtain ⟨s, hs⟩ := worker_reply_appends_both h user_id user_text reply_token generate
  rw [hsent] at hs
  refine ⟨s ++ [("user", if user_text = "" then "(empty)" else user_text)], ?_⟩
  rw [hs, List.append_assoc]
  rfl

theorem worker_reply_generation_failure_fallback_witness :
    (worker_reply emptyHistory "u1" "hi" "tok"
        (fun _ => Except.error "boom")).sent = "Gemini error: " ++ "boom"
    ∧ ∃ s, histGet (worker_reply emptyHistory "u1" "hi" "tok"
          (fun _ => Except.error "boom")).history "u1"
        = s ++ [("assistant", "Gemini error: " ++ "boom")] :=
  worker_reply_generation_failure_fallback emptyHistory "u1" "hi" "tok" "boom" _
    (fun _ => rfl)

/-! ### The webhook callback -/

/-- C9: a `POST /callback` request whose `X-Line-Signature` header does not
verify against the configured channel secret is answered with status 400,
the history store is returned unmodified (hence unchanged for every user),
and no reply worker is dispatched. -/
theorem callback_invalid_signature_rejected
    (verify : String → String → String → Bool) (secret signature body : String)
    (h : History) (events : List InboundEvent)
    (hbad : verify secret signature body = false) :
    callback verify secret signature body h events = (400, h, []) := by
  rw [callback, hbad]
  rfl

theorem callback_invalid_signature_rejected_witness :
    (fun (_ _ _ : String) => false) "secret" "sig" "body" = false
    ∧ callback (fun _ _ _ => false) "secret" "sig" "body" emptyHistory [] 
        = (400, emptyHistory, []) :=
  ⟨rfl, callback_invalid_signature_rejected _ "secret" "sig" "body" emptyHistory [] rfl⟩

/-- The prompt built for an empty `user_text` has nothing between the
`【User】` label and the closing instruction: the user slot is empty. -/
theorem build_prompt_empty_user_slot (user_id : String) (h : History) :
    ∃ s, build_prompt "" user_id h = s ++ promptMid ++ promptTail := by
  refine ⟨promptHead
    ++ (if (histGet h user_id).map renderTurn = [] then "（無對話記錄）"
        else String.intercalate "\n" ((histGet h user_id).map renderTurn)), ?_⟩
  simp only [build_prompt]
  simp [String.append_assoc]

/-- C10: the empty-text placeholder applies only to the stored user turn, not
to the prompt.  For an inbound message whose stripped text is empty, the
worker appends `("user", "(empty)")` to the history store (followed by the
assistant turn carrying the sent reply), while `build_prompt` receives the
original un-normalized empty user text: the prompt's `【User】` slot is the
empty string, with the `【User】` label directly followed by the closing
instruction. -/
theorem on_text_message_empty_text_placeholder (h : History)
    (user_id reply_token : String) (rawText : Option String)
    (generate : String → Except String String)
    (hempty : pyStrip (rawText.getD "") = "") :
    (∃ s, histGet (on_text_message h user_id rawText reply_token generate).history user_id
        = s ++ [("user", "(empty)"),
                ("assistant", (on_text_message h user_id rawText reply_token generate).sent)])
    ∧ ∃ s, (on_text_message h user_id rawText reply_token generate).prompt
        = s ++ promptMid ++ promptTail := by
  constructor
  · have hw := worker_reply_appends_both h user_id (pyStrip (rawText.getD ""))
      reply_token generate
    rw [hempty] at hw
    simpa [on_text_message, hempty] using hw
  · have hc : (on_text_message h user_id rawText reply_token generate).prompt
        = build_prompt "" user_id
            (append_turn h user_id "user" "(empty)") := by
      simp only [on_text_message, worker_reply, hempty]
      rfl
    rw [hc]
    exact build_prompt_empty_user_slot user_id _

theorem on_text_message_empty_text_placeholder_witness :
    pyStrip ((some "  ").getD "") = ""
    ∧ ((∃ s, histGet (on_text_message emptyHistory "u1" (some "  ") "tok"
            (fun _ => Except.ok "ok")).history "u1"
          = s ++ [("user", "(empty)"),
                  ("assistant", (on_text_message emptyHistory "u1" (some "  ") "tok"
                      (fun _ => Except.ok "ok")).sent)])
        ∧ ∃ s, (on_text_message emptyHistory "u1" (some "  ") "tok"
              (fun _ => Except.ok "ok")).prompt
            = s ++ promptMid ++ promptTail) :=
  ⟨by decide,
   on_text_message_empty_text_placeholder emptyHistory "u1" "tok" (some "  ") _ (by decide)⟩
